import Mathlib

/-!
Shallow embedding of the grid-movement core of the `gridman_ecs` repository:
the wall lookup (`is_wall`), the cell-reservation registry
(`GridReservations`, modelled as an association list mirroring the Rust
`HashMap<IVec2, Entity>`), the per-actor motion state machine
(`update_one`, transcribing `update_grid_movement` in
`src/grid_movement.rs`), the reflection calculator
(`calculate_reflection`), the projectile collision check
(`check_projectile_one`, transcribing `check_projectile_collisions` in
`src/collider.rs`), and the deferred reservation sweep
(`sweep`, transcribing `cleanup_dangling_reservations` in
`src/grid_reservation.rs`).

Modelling conventions: Rust `i32`/`u32` quantities are embedded as `Int`
(`Bouncable` counters, where the claims concern underflow) or `Nat`
(map dimensions); `f32` scalars of the motion module are embedded as real
numbers (the claims about them are exact algebraic identities involving
square roots), and `f32` scalars of the collider module as rationals
(their claims are pure comparisons).  Entities are opaque ids (`Nat`).
-/

namespace Gridman

/-- 2D integer vector, mirroring bevy's `IVec2`. -/
structure IVec2 where
  x : Int
  y : Int
deriving DecidableEq, Repr

instance : Add IVec2 := ⟨fun a b => ⟨a.x + b.x, a.y + b.y⟩⟩

instance : Neg IVec2 := ⟨fun a => ⟨-a.x, -a.y⟩⟩

/-- The constant `IVec2::ZERO`. -/
def IVec2.ZERO : IVec2 := ⟨0, 0⟩

theorem IVec2.add_def (a b : IVec2) : a + b = ⟨a.x + b.x, a.y + b.y⟩ := rfl

theorem IVec2.neg_def (a : IVec2) : -a = ⟨-a.x, -a.y⟩ := rfl

/-- The immutable wall grid resource (`MapData` in `src/map.rs`):
width, height and a flat boolean vector. -/
structure MapData where
  width : Nat
  height : Nat
  is_wall : List Bool

/-- The function `is_wall` from `src/grid_movement.rs` (lines 293-307): out-of-bounds
positions are walls; in-bounds positions are read from the flat vector at
the Y-flipped row-major index, defaulting to wall when the index is
missing. -/
def is_wall (pos : IVec2) (map : MapData) : Bool :=
  if pos.x < 0 ∨ pos.y < 0 ∨ (map.width : Int) ≤ pos.x ∨ (map.height : Int) ≤ pos.y then
    true
  else
    let x := pos.x.toNat
    let y := pos.y.toNat
    let flipped_y := map.height - 1 - y
    let idx := flipped_y * map.width + x
    ((map.is_wall.get? idx).getD true)

/-- Opaque actor identifier (bevy `Entity`). -/
abbrev Entity := Nat

/-- The reservation registry `GridReservations(pub HashMap<IVec2, Entity>)`,
modelled as an association list whose key set stays duplicate-free. -/
def Registry := List (IVec2 × Entity)

/-- Mirrors `HashMap::get`. -/
def regGet : Registry → IVec2 → Option Entity
  | [], _ => none
  | (k, v) :: rest, c => if k = c then some v else regGet rest c

/-- Mirrors `HashMap::remove` (drops every binding of the key; under duplicate-free
keys this is the single binding). -/
def regRemove : Registry → IVec2 → Registry
  | [], _ => []
  | (k, v) :: rest, c => if k = c then regRemove rest c else (k, v) :: regRemove rest c

/-- Mirrors `HashMap::insert` (replaces any existing binding of the key). -/
def regInsert (r : Registry) (c : IVec2) (e : Entity) : Registry :=
  (c, e) :: regRemove r c

/-- The registry holds at most one entry per cell (a `HashMap` cannot hold
two entries with the same key). -/
def regNodup (r : Registry) : Prop :=
  (List.map Prod.fst r).Nodup

instance (r : Registry) : Decidable (regNodup r) :=
  List.nodupDecidable (List.map Prod.fst r)

/-- The guarded release inlined at `src/grid_movement.rs` lines 170-177:
remove the cell's entry only when the current occupant is `e`. -/
def release (r : Registry) (cell : IVec2) (e : Entity) : Registry :=
  match regGet r cell with
  | some occupant => if occupant = e then regRemove r cell else r
  | none => r

/-- The sweep `cleanup_dangling_reservations` from `src/grid_reservation.rs`: remove
every entry whose occupant is in the set of removed reservers. -/
def sweep : Registry → List Entity → Registry
  | [], _ => []
  | (k, v) :: rest, removed =>
      if v ∈ removed then sweep rest removed else (k, v) :: sweep rest removed

/-- The function `calculate_reflection` from `src/grid_movement.rs` (lines 244-261):
horizontal neighbour clear → invert y; else vertical neighbour clear →
invert x; else (corner) invert both.  A pure function of its inputs. -/
def calculate_reflection (dir : IVec2) (grid_pos : IVec2) (map_data : MapData) : IVec2 :=
  let dx := dir.x
  let dy := dir.y
  let horiz_next := grid_pos + IVec2.mk dx 0
  let vert_next := grid_pos + IVec2.mk 0 dy
  let horiz_clear := !(is_wall horiz_next map_data)
  let vert_clear := !(is_wall vert_next map_data)
  if horiz_clear then
    IVec2.mk dx (-dy)
  else if vert_clear then
    IVec2.mk (-dx) dy
  else
    IVec2.mk (-dx) (-dy)

/-- The component `Bouncable` from `src/projectile.rs`; the `u32` counters are embedded
as integers so that absence of wrap-around is expressible. -/
structure Bouncable where
  initial : Int
  remaining : Int
deriving DecidableEq, Repr

/-- Models `u32::saturating_sub` on the integer embedding of `u32` values. -/
def u32_saturating_sub (a b : Int) : Int := max (a - b) 0

/-- The constant `TILE_SIZE` from `src/tilemap.rs`. -/
def TILE_SIZE : ℝ := 64

/-- Models `IVec2::as_vec2().length()`: the Euclidean length of the direction
vector, as used by the motion update. -/
noncomputable def IVec2.len (v : IVec2) : ℝ :=
  Real.sqrt ((v.x : ℝ) ^ 2 + (v.y : ℝ) ^ 2)

/-- The per-tick progress increment computed at `src/grid_movement.rs`
line 160: `mover.speed * time.delta_secs() / (TILE_SIZE * dist_factor)`. -/
noncomputable def progressInc (speed dt : ℝ) (dir : IVec2) : ℝ :=
  speed * dt / (TILE_SIZE * IVec2.len dir)

/-- The `GridMover` component, with `f32` fields embedded as reals. -/
structure GridMover where
  grid_pos : IVec2
  direction : IVec2
  progress : ℝ
  speed : ℝ

/-- One row of the `update_grid_movement` query: the entity id, its
`GridMover`, its `IntendedDirection`, and the optional `GridReserver`,
`Bouncable` and `Projectile` components. -/
structure MoverActor where
  id : Entity
  mover : GridMover
  intended : IVec2
  reserver : Bool
  bouncable : Option Bouncable
  projectile : Bool

/-- The outcome of one iteration of the `update_grid_movement` loop for a
single actor: its updated components, whether `commands.despawn` was
issued, and the registry after this actor's claims/releases. -/
structure MoverResult where
  mover : GridMover
  intended : IVec2
  bouncable : Option Bouncable
  despawned : Bool
  reservations : Registry

/-- A `MoverResult` leaving every component and the registry unchanged. -/
def unchangedResult (a : MoverActor) (reg : Registry) : MoverResult :=
  ⟨a.mover, a.intended, a.bouncable, false, reg⟩

/-- The guard `bouncable.as_ref().map_or(false, |b| b.remaining > 0)`. -/
def can_bounce_of : Option Bouncable → Bool
  | some b => decide (0 < b.remaining)
  | none => false

/-- The body of the `update_grid_movement` loop in `src/grid_movement.rs`
(lines 122-235) for one actor: the idle branch (start-of-movement gating
and claim), the in-transit integration, and the arrival resolution with
its carry-over, bounce, stop and direction-change cases. -/
noncomputable def update_one (a : MoverActor) (reg : Registry) (dt : ℝ) (map : MapData) :
    MoverResult :=
  if a.mover.direction = IVec2.ZERO then
    -- State 1: stationary.
    let new_dir := a.intended
    if new_dir ≠ IVec2.ZERO then
      let next_tile := a.mover.grid_pos + new_dir
      let is_tile_wall := is_wall next_tile map
      let is_tile_reserved :=
        a.reserver = true ∧ ∃ occupant, regGet reg next_tile = some occupant ∧ occupant ≠ a.id
      if ¬(is_tile_wall = true) ∧ ¬is_tile_reserved then
        { mover := { a.mover with direction := new_dir, progress := 0 }
          intended := a.intended
          bouncable := a.bouncable
          despawned := false
          reservations := if a.reserver = true then regInsert reg next_tile a.id else reg }
      else
        unchangedResult a reg
    else
      unchangedResult a reg
  else
    -- State 2: in transit between tiles.
    let dist_factor := IVec2.len a.mover.direction
    if dist_factor = 0 then
      unchangedResult a reg  -- defensive `continue`
    else
      let inc := a.mover.speed * dt / (TILE_SIZE * dist_factor)
      let p := a.mover.progress + inc
      if 1 ≤ p then
        -- State 3: arrived at (or passed) the destination tile.
        let old_pos := a.mover.grid_pos
        let current_direction := a.mover.direction
        let new_pos := old_pos + current_direction
        let reg1 := if a.reserver = true then release reg old_pos a.id else reg
        let is_continuing := a.intended = current_direction ∧ current_direction ≠ IVec2.ZERO
        if is_continuing then
          let next_tile := new_pos + current_direction
          if ¬(is_wall next_tile map = true) then
            -- Carry over the excess progress.
            { mover := { grid_pos := new_pos, direction := current_direction,
                         progress := p - 1, speed := a.mover.speed }
              intended := a.intended
              bouncable := a.bouncable
              despawned := false
              reservations := reg1 }
          else
            let can_bounce := can_bounce_of a.bouncable
            if can_bounce = true then
              -- Bouncing logic.
              let new_dir := calculate_reflection current_direction new_pos map
              let bounc := match a.bouncable with
                | some b => some { b with remaining := b.remaining - 1 }
                | none => none
              let old_length := IVec2.len current_direction
              let new_length := IVec2.len new_dir
              let p1 := p - 1
              let p2 := if 0 < new_length ∧ 0 < old_length then
                          p1 * (old_length / new_length)
                        else p1
              { mover := { grid_pos := new_pos, direction := new_dir,
                           progress := p2, speed := a.mover.speed }
                intended := new_dir
                bouncable := bounc
                despawned := false
                reservations := reg1 }
            else
              -- Cannot bounce: stop (and despawn projectiles).
              { mover := { grid_pos := new_pos, direction := IVec2.ZERO,
                           progress := 0, speed := a.mover.speed }
                intended := IVec2.ZERO
                bouncable := a.bouncable
                despawned := a.projectile
                reservations := reg1 }
        else
          -- Not continuing straight: reset progress, maybe adopt a new direction.
          let new_dir := a.intended
          if new_dir ≠ IVec2.ZERO then
            if ¬(is_wall (new_pos + new_dir) map = true) then
              { mover := { grid_pos := new_pos, direction := new_dir,
                           progress := 0, speed := a.mover.speed }
                intended := a.intended
                bouncable := a.bouncable
                despawned := false
                reservations := reg1 }
            else
              { mover := { grid_pos := new_pos, direction := IVec2.ZERO,
                           progress := 0, speed := a.mover.speed }
                intended := a.intended
                bouncable := a.bouncable
                despawned := false
                reservations := reg1 }
          else
            { mover := { grid_pos := new_pos, direction := IVec2.ZERO,
                         progress := 0, speed := a.mover.speed }
              intended := a.intended
              bouncable := a.bouncable
              despawned := false
              reservations := reg1 }
      else
        -- Still travelling: only the progress advances.
        { mover := { a.mover with progress := p }
          intended := a.intended
          bouncable := a.bouncable
          despawned := false
          reservations := reg }

/-- Reassemble a queried actor from the result of its loop iteration. -/
def applyResult (a : MoverActor) (r : MoverResult) : MoverActor :=
  { a with mover := r.mover, intended := r.intended, bouncable := r.bouncable }

/-- The `update_grid_movement` query loop: each actor is processed in
turn, threading the shared registry. -/
noncomputable def run_movers : List MoverActor → Registry → ℝ → MapData →
    List (MoverActor × Bool) × Registry
  | [], reg, _, _ => ([], reg)
  | a :: rest, reg, dt, map =>
      let r := update_one a reg dt map
      let tail := run_movers rest r.reservations dt map
      ((applyResult a r, r.despawned) :: tail.1, tail.2)

/-- One tick of the movement pipeline relevant to the reservation
invariant: the motion update over all actors, then the `PostUpdate`
sweep of reservations held by despawned reservers. -/
noncomputable def tick (actors : List MoverActor) (reg : Registry) (dt : ℝ) (map : MapData) :
    List MoverActor × Registry :=
  let step := run_movers actors reg dt map
  let removed := List.map (fun p => p.1.id)
    (List.filter (fun p => p.2 && p.1.reserver) step.1)
  let survivors := List.map Prod.fst (List.filter (fun p => !p.2) step.1)
  (survivors, sweep step.2 removed)

/-- The reservation invariant of the claim: the registry has at most one
entry per cell, every stationary reserver holds a reservation on its
current cell, and every in-transit reserver holds one on its destination
cell. -/
def reserver_inv (actors : List MoverActor) (reg : Registry) : Prop :=
  regNodup reg ∧
  ∀ a ∈ actors, a.reserver = true →
    (a.mover.direction = IVec2.ZERO → regGet reg a.mover.grid_pos = some a.id) ∧
    (a.mover.direction ≠ IVec2.ZERO →
      regGet reg (a.mover.grid_pos + a.mover.direction) = some a.id)

/-- The function `aabb_overlap` from `src/collider.rs`: strict overlap of two
axis-aligned boxes given by centre and full size (`f32` pairs embedded as
rationals). -/
def aabb_overlap (pos1 size1 pos2 size2 : ℚ × ℚ) : Bool :=
  let half1 := (size1.1 / 2, size1.2 / 2)
  let half2 := (size2.1 / 2, size2.2 / 2)
  let min1 := (pos1.1 - half1.1, pos1.2 - half1.2)
  let max1 := (pos1.1 + half1.1, pos1.2 + half1.2)
  let min2 := (pos2.1 - half2.1, pos2.2 - half2.2)
  let max2 := (pos2.1 + half2.1, pos2.2 + half2.2)
  decide (min1.1 < max2.1 ∧ min2.1 < max1.1 ∧ min1.2 < max2.2 ∧ min2.2 < max1.2)

/-- The body of the `check_projectile_collisions` loop in
`src/collider.rs` (lines 56-102) for one projectile: skip stationary
projectiles; broad phase looks up the registry at `grid_pos + direction`;
narrow phase fetches the victim's transform and collider, applies the
self-fire immunity rule (`bounced = initial.saturating_sub(remaining)`,
skip when the victim is the player and `bounced < 1`), and emits one
`ProjectileCollision` event on box overlap. -/
def check_projectile_one (proj_id : Entity) (proj_pos proj_size : ℚ × ℚ)
    (grid_pos direction : IVec2) (b : Bouncable) (reg : Registry)
    (collidables : Entity → Option ((ℚ × ℚ) × (ℚ × ℚ)))
    (is_player_entity : Entity → Bool) : List (Entity × Entity) :=
  if direction = IVec2.ZERO then
    []
  else
    let target_tile := grid_pos + direction
    match regGet reg target_tile with
    | none => []
    | some victim =>
      match collidables victim with
      | none => []
      | some vc =>
        let bounced := u32_saturating_sub b.initial b.remaining
        if is_player_entity victim = true ∧ bounced < 1 then
          []
        else if aabb_overlap proj_pos proj_size vc.1 vc.2 = true then
          [(proj_id, victim)]
        else
          []

/-! Concrete fixtures used to exercise the definitions. -/

/-- A 5x5 map whose cells are all open. -/
def mapOpen5 : MapData := ⟨5, 5, List.replicate 25 false⟩

/-- A 2x2 map: row-major data `[wall, open, open, wall]`. -/
def mapTiny : MapData := ⟨2, 2, [true, false, false, true]⟩

/-- A freshly spawned reserver (as `spawn_player`/`spawn_enemies` build
them): stationary, progress 0, with a buffered intent to move right. -/
def spawnActor : MoverActor := ⟨7, ⟨⟨1, 1⟩, IVec2.ZERO, 0, 96⟩, ⟨1, 0⟩, true, none, false⟩

/-- The registry right after `spawnActor` spawns: its cell is reserved for
it (mirroring `reservations.0.insert(spawn_pos, entity)`). -/
def spawnReg : Registry := [(⟨1, 1⟩, 7)]

/-- A non-reserving actor in transit to the right at speed 100. -/
def transitActor : MoverActor := ⟨1, ⟨⟨1, 1⟩, ⟨1, 0⟩, 0, 100⟩, ⟨1, 0⟩, false, none, false⟩

/-- A slow non-reserving actor in transit to the right at speed 32. -/
def probeActor : MoverActor := ⟨2, ⟨⟨1, 1⟩, ⟨1, 0⟩, 0, 32⟩, ⟨1, 0⟩, false, none, false⟩

/-- A projectile in transit with a fresh bounce budget of 3. -/
def bounceActor : MoverActor :=
  ⟨3, ⟨⟨1, 1⟩, ⟨1, 0⟩, 0, 96⟩, ⟨1, 0⟩, false, some ⟨3, 3⟩, true⟩

/-- The state of `spawnActor` after its first tick (`dt = 1`): in transit
from `(1,1)` toward `(2,1)`, intent unchanged. -/
def midActor : MoverActor := ⟨7, ⟨⟨1, 1⟩, ⟨1, 0⟩, 0, 96⟩, ⟨1, 0⟩, true, none, false⟩

/-- The registry after `spawnActor`'s first tick: the claimed destination
`(2,1)` and the still-held origin `(1,1)`. -/
def midReg : Registry := [(⟨2, 1⟩, 7), (⟨1, 1⟩, 7)]

/-! Helper lemmas about the registry operations. -/

theorem regGet_regRemove_self (r : Registry) (c : IVec2) :
    regGet (regRemove r c) c = none := by
  induction r with
  | nil => rfl
  | cons hd tl ih =>
    obtain ⟨k, v⟩ := hd
    by_cases hk : k = c
    · simpa [regRemove, hk] using ih
    · simpa [regRemove, regGet, hk] using ih

theorem regGet_regRemove_ne (r : Registry) (c c' : IVec2) (h : c' ≠ c) :
    regGet (regRemove r c) c' = regGet r c' := by
  have hcc : c ≠ c' := Ne.symm h
  induction r with
  | nil => rfl
  | cons hd tl ih =>
    obtain ⟨k, v⟩ := hd
    by_cases hk : k = c
    · simp [regRemove, regGet, hk, hcc, ih]
    · simp only [regRemove, if_neg hk, regGet]
      by_cases hk2 : k = c'
      · simp [hk2]
      · simp [hk2, ih]

theorem regGet_regInsert_self (r : Registry) (c : IVec2) (e : Entity) :
    regGet (regInsert r c e) c = some e := by
  simp [regInsert, regGet]

theorem regGet_regInsert_ne (r : Registry) (c c' : IVec2) (e : Entity) (h : c' ≠ c) :
    regGet (regInsert r c e) c' = regGet r c' := by
  have hc : ¬ c = c' := fun hc => h hc.symm
  simp [regInsert, regGet, hc, regGet_regRemove_ne r c c' h]

theorem mem_keys_regRemove {r : Registry} {c k : IVec2}
    (h : k ∈ List.map Prod.fst (regRemove r c)) : k ∈ List.map Prod.fst r := by
  induction r with
  | nil => exact h
  | cons hd tl ih =>
    obtain ⟨k', v⟩ := hd
    by_cases hk : k' = c
    · simp only [regRemove, if_pos hk] at h
      exact List.mem_cons_of_mem _ (ih h)
    · simp only [regRemove, if_neg hk, List.map_cons, List.mem_cons] at h ⊢
      rcases h with h | h
      · exact Or.inl h
      · exact Or.inr (ih h)

theorem not_mem_keys_regRemove (r : Registry) (c : IVec2) :
    c ∉ List.map Prod.fst (regRemove r c) := by
  induction r with
  | nil => simp [regRemove]
  | cons hd tl ih =>
    obtain ⟨k, v⟩ := hd
    by_cases hk : k = c
    · simpa [regRemove, hk] using ih
    · simp [regRemove, hk, ih, Ne.symm hk]

theorem regNodup_regRemove {r : Registry} (c : IVec2) (h : regNodup r) :
    regNodup (regRemove r c) := by
  induction r with
  | nil => simpa [regRemove] using h
  | cons hd tl ih =>
    obtain ⟨k, v⟩ := hd
    simp only [regNodup, List.map_cons, List.nodup_cons] at h
    by_cases hk : k = c
    · simpa [regRemove, hk] using ih h.2
    · simp only [regRemove, if_neg hk, regNodup, List.map_cons, List.nodup_cons]
      exact ⟨fun hm => h.1 (mem_keys_regRemove hm), ih h.2⟩

theorem regNodup_regInsert {r : Registry} (c : IVec2) (e : Entity) (h : regNodup r) :
    regNodup (regInsert r c e) := by
  simp only [regInsert, regNodup, List.map_cons, List.nodup_cons]
  exact ⟨not_mem_keys_regRemove r c, regNodup_regRemove c h⟩

theorem regNodup_release {r : Registry} (c : IVec2) (e : Entity) (h : regNodup r) :
    regNodup (release r c e) := by
  unfold release
  cases regGet r c with
  | none => exact h
  | some occ =>
    by_cases ho : occ = e
    · simpa [ho] using regNodup_regRemove c h
    · simpa [ho] using h

theorem sweep_nil (r : Registry) : sweep r [] = r := by
  induction r with
  | nil => rfl
  | cons hd tl ih =>
    obtain ⟨k, v⟩ := hd
    simp [sweep, ih]

/-! Helper lemmas about direction lengths and the reflection geometry. -/

theorem IVec2.eq_zero_iff (d : IVec2) : d = IVec2.ZERO ↔ d.x = 0 ∧ d.y = 0 := by
  obtain ⟨x, y⟩ := d
  simp [IVec2.ZERO]

theorem IVec2.ne_zero_iff (d : IVec2) : d ≠ IVec2.ZERO ↔ d.x ≠ 0 ∨ d.y ≠ 0 := by
  rw [Ne, IVec2.eq_zero_iff]
  tauto

theorem sq_sum_pos (d : IVec2) (h : d ≠ IVec2.ZERO) :
    0 < (d.x : ℝ) ^ 2 + (d.y : ℝ) ^ 2 := by
  rcases (IVec2.ne_zero_iff d).mp h with hx | hy
  · have : (d.x : ℝ) ≠ 0 := Int.cast_ne_zero.mpr hx
    have h1 : 0 < (d.x : ℝ) ^ 2 := by positivity
    nlinarith [sq_nonneg ((d.y : ℝ))]
  · have : (d.y : ℝ) ≠ 0 := Int.cast_ne_zero.mpr hy
    have h1 : 0 < (d.y : ℝ) ^ 2 := by positivity
    nlinarith [sq_nonneg ((d.x : ℝ))]

theorem len_pos (d : IVec2) (h : d ≠ IVec2.ZERO) : 0 < IVec2.len d :=
  Real.sqrt_pos.mpr (sq_sum_pos d h)

theorem len_ne_zero (d : IVec2) (h : d ≠ IVec2.ZERO) : IVec2.len d ≠ 0 :=
  ne_of_gt (len_pos d h)

theorem len_mk_cardinal_x : IVec2.len ⟨1, 0⟩ = 1 := by
  simp [IVec2.len]

theorem len_mk_diagonal : IVec2.len ⟨1, 1⟩ = Real.sqrt 2 := by
  norm_num [IVec2.len]

theorem len_reflection (d p : IVec2) (map : MapData) :
    IVec2.len (calculate_reflection d p map) = IVec2.len d := by
  unfold calculate_reflection
  dsimp only
  split_ifs <;> simp [IVec2.len, neg_sq]

/-! Branch characterizations of `update_one`, one per path through
`update_grid_movement`. -/

theorem update_one_idle_still (a : MoverActor) (reg : Registry) (dt : ℝ) (map : MapData)
    (h0 : a.mover.direction = IVec2.ZERO) (h1 : a.intended = IVec2.ZERO) :
    update_one a reg dt map = unchangedResult a reg := by
  unfold update_one
  rw [if_pos h0]
  dsimp only
  rw [if_neg (by simp [h1])]

theorem update_one_idle_start (a : MoverActor) (reg : Registry) (dt : ℝ) (map : MapData)
    (h0 : a.mover.direction = IVec2.ZERO) (h1 : a.intended ≠ IVec2.ZERO)
    (hw : is_wall (a.mover.grid_pos + a.intended) map = false)
    (hr : ¬(a.reserver = true ∧
        ∃ occupant, regGet reg (a.mover.grid_pos + a.intended) = some occupant ∧
          occupant ≠ a.id)) :
    update_one a reg dt map =
      { mover := { a.mover with direction := a.intended, progress := 0 }
        intended := a.intended
        bouncable := a.bouncable
        despawned := false
        reservations :=
          if a.reserver = true then
            regInsert reg (a.mover.grid_pos + a.intended) a.id
          else reg } := by
  unfold update_one
  rw [if_pos h0]
  dsimp only
  rw [if_pos h1, if_pos (And.intro (by simp [hw]) hr)]

theorem update_one_idle_blocked (a : MoverActor) (reg : Registry) (dt : ℝ) (map : MapData)
    (h0 : a.mover.direction = IVec2.ZERO) (h1 : a.intended ≠ IVec2.ZERO)
    (hb : is_wall (a.mover.grid_pos + a.intended) map = true ∨
        (a.reserver = true ∧
          ∃ occupant, regGet reg (a.mover.grid_pos + a.intended) = some occupant ∧
            occupant ≠ a.id)) :
    update_one a reg dt map = unchangedResult a reg := by
  unfold update_one
  rw [if_pos h0]
  dsimp only
  rw [if_pos h1, if_neg ?_]
  rintro ⟨hw, hr⟩
  rcases hb with hb | hb
  · exact hw hb
  · exact hr hb

theorem update_one_transit_noarrival (a : MoverActor) (reg : Registry) (dt : ℝ)
    (map : MapData) (h0 : a.mover.direction ≠ IVec2.ZERO)
    (hp : a.mover.progress + progressInc a.mover.speed dt a.mover.direction < 1) :
    update_one a reg dt map =
      { mover := { a.mover with
          progress := a.mover.progress + progressInc a.mover.speed dt a.mover.direction }
        intended := a.intended
        bouncable := a.bouncable
        despawned := false
        reservations := reg } := by
  simp only [progressInc] at hp ⊢
  unfold update_one
  rw [if_neg h0]
  dsimp only
  rw [if_neg (len_ne_zero _ h0), if_neg (not_le.mpr hp)]

theorem update_one_arrival_carry (a : MoverActor) (reg : Registry) (dt : ℝ) (map : MapData)
    (h0 : a.mover.direction ≠ IVec2.ZERO)
    (hp : 1 ≤ a.mover.progress + progressInc a.mover.speed dt a.mover.direction)
    (hcont : a.intended = a.mover.direction)
    (hw : is_wall (a.mover.grid_pos + a.mover.direction + a.mover.direction) map = false) :
    update_one a reg dt map =
      { mover := { grid_pos := a.mover.grid_pos + a.mover.direction
                   direction := a.mover.direction
                   progress :=
                     a.mover.progress + progressInc a.mover.speed dt a.mover.direction - 1
                   speed := a.mover.speed }
        intended := a.intended
        bouncable := a.bouncable
        despawned := false
        reservations :=
          if a.reserver = true then release reg a.mover.grid_pos a.id else reg } := by
  simp only [progressInc] at hp ⊢
  unfold update_one
  rw [if_neg h0]
  dsimp only
  rw [if_neg (len_ne_zero _ h0), if_pos hp, if_pos (And.intro hcont h0),
    if_pos (by simp [hw])]

theorem update_one_arrival_bounce (a : MoverActor) (reg : Registry) (dt : ℝ) (map : MapData)
    (b : Bouncable) (h0 : a.mover.direction ≠ IVec2.ZERO)
    (hp : 1 ≤ a.mover.progress + progressInc a.mover.speed dt a.mover.direction)
    (hcont : a.intended = a.mover.direction)
    (hw : is_wall (a.mover.grid_pos + a.mover.direction + a.mover.direction) map = true)
    (hb : a.bouncable = some b) (hrem : 0 < b.remaining) :
    update_one a reg dt map =
      { mover := { grid_pos := a.mover.grid_pos + a.mover.direction
                   direction := calculate_reflection a.mover.direction
                     (a.mover.grid_pos + a.mover.direction) map
                   progress :=
                     (a.mover.progress + progressInc a.mover.speed dt a.mover.direction - 1) *
                       (IVec2.len a.mover.direction /
                         IVec2.len (calculate_reflection a.mover.direction
                           (a.mover.grid_pos + a.mover.direction) map))
                   speed := a.mover.speed }
        intended := calculate_reflection a.mover.direction
          (a.mover.grid_pos + a.mover.direction) map
        bouncable := some { b with remaining := b.remaining - 1 }
        despawned := false
        reservations :=
          if a.reserver = true then release reg a.mover.grid_pos a.id else reg } := by
  have hlenr : 0 < IVec2.len (calculate_reflection a.mover.direction
      (a.mover.grid_pos + a.mover.direction) map) := by
    rw [len_reflection]
    exact len_pos _ h0
  simp only [progressInc] at hp ⊢
  unfold update_one
  rw [if_neg h0]
  dsimp only
  rw [if_neg (len_ne_zero _ h0), if_pos hp, if_pos (And.intro hcont h0),
    if_neg (by simp [hw]), if_pos (by simp [can_bounce_of, hb, hrem]),
    hb]
  dsimp only
  rw [if_pos (And.intro hlenr (len_pos _ h0))]

theorem update_one_arrival_stop (a : MoverActor) (reg : Registry) (dt : ℝ) (map : MapData)
    (h0 : a.mover.direction ≠ IVec2.ZERO)
    (hp : 1 ≤ a.mover.progress + progressInc a.mover.speed dt a.mover.direction)
    (hcont : a.intended = a.mover.direction)
    (hw : is_wall (a.mover.grid_pos + a.mover.direction + a.mover.direction) map = true)
    (hb : can_bounce_of a.bouncable = false) :
    update_one a reg dt map =
      { mover := { grid_pos := a.mover.grid_pos + a.mover.direction
                   direction := IVec2.ZERO
                   progress := 0
                   speed := a.mover.speed }
        intended := IVec2.ZERO
        bouncable := a.bouncable
        despawned := a.projectile
        reservations :=
          if a.reserver = true then release reg a.mover.grid_pos a.id else reg } := by
  simp only [progressInc] at hp ⊢
  unfold update_one
  rw [if_neg h0]
  dsimp only
  rw [if_neg (len_ne_zero _ h0), if_pos hp, if_pos (And.intro hcont h0),
    if_neg (by simp [hw]), if_neg (by simp [hb])]

theorem update_one_arrival_turn (a : MoverActor) (reg : Registry) (dt : ℝ) (map : MapData)
    (h0 : a.mover.direction ≠ IVec2.ZERO)
    (hp : 1 ≤ a.mover.progress + progressInc a.mover.speed dt a.mover.direction)
    (hnc : a.intended ≠ a.mover.direction) :
    update_one a reg dt map =
      { mover := { grid_pos := a.mover.grid_pos + a.mover.direction
                   direction :=
                     if a.intended ≠ IVec2.ZERO ∧
                         is_wall (a.mover.grid_pos + a.mover.direction + a.intended) map =
                           false then
                       a.intended
                     else IVec2.ZERO
                   progress := 0
                   speed := a.mover.speed }
        intended := a.intended
        bouncable := a.bouncable
        despawned := false
        reservations :=
          if a.reserver = true then release reg a.mover.grid_pos a.id else reg } := by
  simp only [progressInc] at hp ⊢
  unfold update_one
  rw [if_neg h0]
  dsimp only
  rw [if_neg (len_ne_zero _ h0), if_pos hp, if_neg (by rintro ⟨hc, _⟩; exact hnc hc)]
  by_cases hi : a.intended = IVec2.ZERO
  · rw [if_neg (by simpa using hi)]
    simp [hi]
  · rw [if_pos hi]
    by_cases hwall : is_wall (a.mover.grid_pos + a.mover.direction + a.intended) map = true
    · rw [if_neg (by simp [hwall])]
      simp [hwall, hi]
    · rw [if_pos (by simpa using hwall)]
      have hwf : is_wall (a.mover.grid_pos + a.mover.direction + a.intended) map = false := by
        simpa using hwall
      simp [hwf, hi]

theorem update_one_arrival_reservations (a : MoverActor) (reg : Registry) (dt : ℝ)
    (map : MapData) (h0 : a.mover.direction ≠ IVec2.ZERO)
    (hp : 1 ≤ a.mover.progress + progressInc a.mover.speed dt a.mover.direction) :
    (update_one a reg dt map).reservations =
      if a.reserver = true then release reg a.mover.grid_pos a.id else reg := by
  simp only [progressInc] at hp
  unfold update_one
  rw [if_neg h0]
  dsimp only
  rw [if_neg (len_ne_zero _ h0), if_pos hp]
  split_ifs <;> rfl

theorem update_one_reservations_cases (a : MoverActor) (reg : Registry) (dt : ℝ)
    (map : MapData) :
    (update_one a reg dt map).reservations = reg ∨
    (update_one a reg dt map).reservations =
      regInsert reg (a.mover.grid_pos + a.intended) a.id ∨
    (update_one a reg dt map).reservations = release reg a.mover.grid_pos a.id := by
  unfold update_one
  dsimp only
  split_ifs
  all_goals first
    | exact Or.inl rfl
    | exact Or.inr (Or.inl rfl)
    | exact Or.inr (Or.inr rfl)

set_option maxHeartbeats 1600000 in
theorem update_one_bouncable_cases (a : MoverActor) (reg : Registry) (dt : ℝ)
    (map : MapData) :
    (update_one a reg dt map).bouncable = a.bouncable ∨
    (∃ b, a.bouncable = some b ∧ 0 < b.remaining ∧
      (update_one a reg dt map).bouncable = some ⟨b.initial, b.remaining - 1⟩) := by
  cases hob : a.bouncable with
  | none =>
    left
    unfold update_one
    dsimp only
    rw [hob]
    split_ifs <;> first | rfl | exact hob
  | some b =>
    unfold update_one
    dsimp only
    rw [hob]
    dsimp only
    split_ifs
    all_goals first
      | exact Or.inl rfl
      | exact Or.inl hob
      | exact Or.inr ⟨b, rfl, by simp_all [can_bounce_of], rfl⟩

/-! The claims. -/

/-- C8: `is_wall` is fail-closed: any cell outside `[0,width)×[0,height)`
is a wall; an in-bounds cell whose Y-flipped row-major index
`(height - 1 - y) * width + x` is missing from the backing vector is a
wall; and an in-bounds cell with a present entry yields exactly the
stored boolean.  (Purity holds by construction: `is_wall` is a function
of its arguments alone.) -/
theorem c8_is_wall_fail_closed (pos : IVec2) (map : MapData) :
    ((pos.x < 0 ∨ pos.y < 0 ∨ (map.width : Int) ≤ pos.x ∨ (map.height : Int) ≤ pos.y) →
      is_wall pos map = true) ∧
    (0 ≤ pos.x → 0 ≤ pos.y → pos.x < (map.width : Int) → pos.y < (map.height : Int) →
      (map.is_wall.get? ((map.height - 1 - pos.y.toNat) * map.width + pos.x.toNat) = none →
        is_wall pos map = true) ∧
      (∀ bw, map.is_wall.get? ((map.height - 1 - pos.y.toNat) * map.width + pos.x.toNat) =
          some bw → is_wall pos map = bw)) := by
  constructor
  · intro h
    unfold is_wall
    rw [if_pos h]
  · intro hx hy hwd hht
    have hcond : ¬(pos.x < 0 ∨ pos.y < 0 ∨ (map.width : Int) ≤ pos.x ∨
        (map.height : Int) ≤ pos.y) := by
      push_neg
      exact ⟨hx, hy, hwd, hht⟩
    constructor
    · intro hnone
      unfold is_wall
      rw [if_neg hcond]
      dsimp only
      rw [hnone]
      rfl
    · intro bw hsome
      unfold is_wall
      rw [if_neg hcond]
      dsimp only
      rw [hsome]
      rfl

/-- Witness for C8 at concrete inputs: the out-of-bounds cell `(-1,0)` of
`mapTiny` is a wall, and the in-bounds cell `(0,0)` reads its stored
(open) entry. -/
theorem c8_is_wall_fail_closed_witness :
    is_wall ⟨-1, 0⟩ mapTiny = true ∧ is_wall ⟨0, 0⟩ mapTiny = false :=
  ⟨(c8_is_wall_fail_closed ⟨-1, 0⟩ mapTiny).1 (Or.inl (by norm_num)),
   ((c8_is_wall_fail_closed ⟨0, 0⟩ mapTiny).2 (by norm_num) (by norm_num)
      (by norm_num [mapTiny]) (by norm_num [mapTiny])).2 false (by decide)⟩

/-- C7: the guarded release removes the cell's entry only when the
current occupant is the releasing actor; a stale release (different
occupant, or no occupant) leaves the registry unchanged and raises no
error, so the newer occupant's entry survives.  In particular, when an
arriving reserver vacates its old cell inside the motion update, an
entry held by a different entity at that cell survives. -/
theorem c7_release_guarded :
    (∀ (r : Registry) (cell : IVec2) (e : Entity),
      (regGet r cell = some e → release r cell e = regRemove r cell) ∧
      (∀ b, regGet r cell = some b → b ≠ e →
        release r cell e = r ∧ regGet (release r cell e) cell = some b) ∧
      (regGet r cell = none → release r cell e = r)) ∧
    (∀ (a : MoverActor) (reg : Registry) (dt : ℝ) (map : MapData) (b : Entity),
      a.mover.direction ≠ IVec2.ZERO →
      1 ≤ a.mover.progress + progressInc a.mover.speed dt a.mover.direction →
      regGet reg a.mover.grid_pos = some b → b ≠ a.id →
      regGet (update_one a reg dt map).reservations a.mover.grid_pos = some b) := by
  constructor
  · intro r cell e
    refine ⟨?_, ?_, ?_⟩
    · intro h
      unfold release
      rw [h]
      simp
    · intro b hb hbe
      unfold release
      rw [hb]
      dsimp only
      rw [if_neg hbe]
      exact ⟨rfl, hb⟩
    · intro h
      unfold release
      rw [h]
  · intro a reg dt map b h0 hp hold hne
    rw [update_one_arrival_reservations a reg dt map h0 hp]
    by_cases hres : a.reserver = true
    · rw [if_pos hres]
      unfold release
      rw [hold]
      dsimp only
      rw [if_neg hne]
      exact hold
    · rw [if_neg hres]
      exact hold

/-- Witness for C7 at a concrete registry: releasing cell `(0,0)` on
behalf of actor `4` while actor `9` occupies it is silently ignored and
actor `9`'s entry survives. -/
theorem c7_release_guarded_witness :
    release [(⟨0, 0⟩, 9)] ⟨0, 0⟩ 4 = [(⟨0, 0⟩, 9)] ∧
    regGet (release [(⟨0, 0⟩, 9)] ⟨0, 0⟩ 4) ⟨0, 0⟩ = some 9 :=
  (c7_release_guarded.1 [(⟨0, 0⟩, 9)] ⟨0, 0⟩ 4).2.1 9 (by decide) (by decide)

/-- C5: `calculate_reflection` is pure (a function of its inputs) and
follows the horizontal-first tie-break: horizontal neighbour open →
invert y only; else vertical neighbour open → invert x only; else
(corner) invert both components, i.e. return `-direction`. -/
theorem c5_reflection_tie_break (d p : IVec2) (map : MapData) :
    (is_wall (p + IVec2.mk d.x 0) map = false →
      calculate_reflection d p map = IVec2.mk d.x (-d.y)) ∧
    (is_wall (p + IVec2.mk d.x 0) map = true →
      is_wall (p + IVec2.mk 0 d.y) map = false →
      calculate_reflection d p map = IVec2.mk (-d.x) d.y) ∧
    (is_wall (p + IVec2.mk d.x 0) map = true →
      is_wall (p + IVec2.mk 0 d.y) map = true →
      calculate_reflection d p map = IVec2.mk (-d.x) (-d.y) ∧
        calculate_reflection d p map = -d) := by
  unfold calculate_reflection
  dsimp only
  refine ⟨?_, ?_, ?_⟩
  · intro h1
    rw [if_pos (by simp [h1])]
  · intro h1 h2
    rw [if_neg (by simp [h1]), if_pos (by simp [h2])]
  · intro h1 h2
    rw [if_neg (by simp [h1]), if_neg (by simp [h2])]
    exact ⟨rfl, rfl⟩

/-- Witness for C5 at a concrete corner of `mapTiny`: both neighbours of
`(0,0)` along `(1,1)` are walls, so the reflection is the full
inversion `(-1,-1)`. -/
theorem c5_reflection_tie_break_witness :
    calculate_reflection ⟨1, 1⟩ ⟨0, 0⟩ mapTiny = IVec2.mk (-1) (-1) ∧
    calculate_reflection ⟨1, 1⟩ ⟨0, 0⟩ mapTiny = -(IVec2.mk 1 1) :=
  (c5_reflection_tie_break ⟨1, 1⟩ ⟨0, 0⟩ mapTiny).2.2 (by decide) (by decide)

/-- C2: a stationary actor with a non-zero intent starts moving (direction
set to the intent, progress reset to 0) if and only if the target cell is
not a wall and (for reservers) the target is unreserved or reserved by the
actor itself; on a successful start by a reserver the registry gains the
entry `target -> actor`; and when the start condition fails, the actor's
motion state and the registry are unchanged. -/
theorem c2_idle_start_gating (a : MoverActor) (reg : Registry) (dt : ℝ) (map : MapData)
    (h0 : a.mover.direction = IVec2.ZERO) (h1 : a.intended ≠ IVec2.ZERO) :
    (((update_one a reg dt map).mover.direction = a.intended ∧
        (update_one a reg dt map).mover.progress = 0) ↔
      (is_wall (a.mover.grid_pos + a.intended) map = false ∧
        (a.reserver = true →
          regGet reg (a.mover.grid_pos + a.intended) = none ∨
          regGet reg (a.mover.grid_pos + a.intended) = some a.id))) ∧
    (is_wall (a.mover.grid_pos + a.intended) map = false →
      (a.reserver = true →
        regGet reg (a.mover.grid_pos + a.intended) = none ∨
        regGet reg (a.mover.grid_pos + a.intended) = some a.id) →
      a.reserver = true →
      (update_one a reg dt map).reservations =
        regInsert reg (a.mover.grid_pos + a.intended) a.id ∧
      regGet (update_one a reg dt map).reservations (a.mover.grid_pos + a.intended) =
        some a.id) ∧
    (¬(is_wall (a.mover.grid_pos + a.intended) map = false ∧
        (a.reserver = true →
          regGet reg (a.mover.grid_pos + a.intended) = none ∨
          regGet reg (a.mover.grid_pos + a.intended) = some a.id)) →
      update_one a reg dt map = unchangedResult a reg) := by
  have hiff : (is_wall (a.mover.grid_pos + a.intended) map = false ∧
      (a.reserver = true →
        regGet reg (a.mover.grid_pos + a.intended) = none ∨
        regGet reg (a.mover.grid_pos + a.intended) = some a.id)) ↔
      (¬(is_wall (a.mover.grid_pos + a.intended) map = true) ∧
        ¬(a.reserver = true ∧
          ∃ occupant, regGet reg (a.mover.grid_pos + a.intended) = some occupant ∧
            occupant ≠ a.id)) := by
    cases hg : regGet reg (a.mover.grid_pos + a.intended) with
    | none => simp [hg, Bool.not_eq_true]
    | some o =>
      by_cases ho : o = a.id
      · simp [hg, ho, Bool.not_eq_true]
      · simp only [hg, Bool.not_eq_true]
        constructor
        · rintro ⟨hw, hr⟩
          refine ⟨hw, ?_⟩
          rintro ⟨hres, o2, ho2, hne⟩
          rcases hr hres with h | h
          · exact Option.noConfusion h
          · exact ho (Option.some_inj.mp h.symm).symm
        · rintro ⟨hw, hr⟩
          refine ⟨hw, fun hres => absurd ⟨hres, o, rfl, ho⟩ hr⟩
  by_cases hsc : is_wall (a.mover.grid_pos + a.intended) map = false ∧
      (a.reserver = true →
        regGet reg (a.mover.grid_pos + a.intended) = none ∨
        regGet reg (a.mover.grid_pos + a.intended) = some a.id)
  · obtain ⟨hw, hr⟩ := hiff.mp hsc
    rw [update_one_idle_start a reg dt map h0 h1 hsc.1 hr]
    refine ⟨?_, ?_, ?_⟩
    · simpa using hsc
    · intro _ _ hres
      rw [if_pos hres]
      exact ⟨rfl, regGet_regInsert_self reg (a.mover.grid_pos + a.intended) a.id⟩
    · intro hn
      exact absurd hsc hn
  · have hb : is_wall (a.mover.grid_pos + a.intended) map = true ∨
        (a.reserver = true ∧
          ∃ occupant, regGet reg (a.mover.grid_pos + a.intended) = some occupant ∧
            occupant ≠ a.id) := by
      rcases Classical.em (is_wall (a.mover.grid_pos + a.intended) map = true) with hw | hw
      · exact Or.inl hw
      · rcases Classical.em (a.reserver = true ∧
            ∃ occupant, regGet reg (a.mover.grid_pos + a.intended) = some occupant ∧
              occupant ≠ a.id) with hr | hr
        · exact Or.inr hr
        · exact absurd (hiff.mpr ⟨hw, hr⟩) hsc
    rw [update_one_idle_blocked a reg dt map h0 h1 hb]
    refine ⟨?_, ?_, ?_⟩
    · simp only [unchangedResult]
      constructor
      · rintro ⟨hd, _⟩
        exact absurd (h0 ▸ hd.symm) h1
      · intro hc
        exact absurd hc hsc
    · intro hw hr _
      exact absurd ⟨hw, hr⟩ hsc
    · intro _
      rfl

/-- Witness for C2: the freshly spawned reserver `spawnActor` (stationary
at `(1,1)` with intent `(1,0)`, holding its own cell in `spawnReg`)
successfully starts: the registry gains the entry `(2,1) -> 7`. -/
theorem c2_idle_start_gating_witness :
    (update_one spawnActor spawnReg 1 mapOpen5).reservations =
      regInsert spawnReg (spawnActor.mover.grid_pos + spawnActor.intended) spawnActor.id ∧
    regGet (update_one spawnActor spawnReg 1 mapOpen5).reservations
      (spawnActor.mover.grid_pos + spawnActor.intended) = some spawnActor.id :=
  (c2_idle_start_gating spawnActor spawnReg 1 mapOpen5 rfl (by decide)).2.1
    (by decide) (fun _ => by decide) rfl

/-- C4: the per-tick progress increment is exactly
`speed * dt / (TILE_SIZE * ‖direction‖)`; at `speed = 100`,
`tile_size = 64`, `direction = (1,1)`, `dt = 0.64` it equals
`100 * 0.64 / (64 * √2)`; a diagonal step accumulates progress `√2`
times slower than a cardinal step at the same speed; and for an
in-transit actor that does not arrive this tick the motion update adds
exactly this increment to `progress`. -/
theorem c4_progress_increment :
    (∀ (s t : ℝ) (d : IVec2),
      progressInc s t d = s * t / (64 * Real.sqrt ((d.x : ℝ) ^ 2 + (d.y : ℝ) ^ 2))) ∧
    progressInc 100 0.64 ⟨1, 1⟩ = 100 * 0.64 / (64 * Real.sqrt 2) ∧
    progressInc 100 0.64 ⟨1, 1⟩ * Real.sqrt 2 = progressInc 100 0.64 ⟨1, 0⟩ ∧
    (∀ (a : MoverActor) (reg : Registry) (dt : ℝ) (map : MapData),
      a.mover.direction ≠ IVec2.ZERO →
      a.mover.progress + progressInc a.mover.speed dt a.mover.direction < 1 →
      (update_one a reg dt map).mover.progress =
        a.mover.progress + progressInc a.mover.speed dt a.mover.direction) := by
  have hsqrt2 : (0 : ℝ) < Real.sqrt 2 := Real.sqrt_pos.mpr (by norm_num)
  refine ⟨?_, ?_, ?_, ?_⟩
  · intro s t d
    rfl
  · rw [progressInc, len_mk_diagonal, TILE_SIZE]
  · rw [progressInc, progressInc, len_mk_diagonal, len_mk_cardinal_x, TILE_SIZE]
    field_simp
    ring
  · intro a reg dt map h0 hp
    rw [update_one_transit_noarrival a reg dt map h0 hp]

/-- Witness for C4: the in-transit `probeActor` (speed 32, direction
`(1,0)`, progress 0) advances by exactly its increment with `dt = 1`. -/
theorem c4_progress_increment_witness :
    (update_one probeActor [] 1 mapOpen5).mover.progress =
      probeActor.mover.progress +
        progressInc probeActor.mover.speed 1 probeActor.mover.direction :=
  c4_progress_increment.2.2.2 probeActor [] 1 mapOpen5 (by decide)
    (by norm_num [probeActor, progressInc, TILE_SIZE, len_mk_cardinal_x])

/-- C9: `calculate_reflection` preserves the component magnitudes of the
direction (each output component is `±` the corresponding input
component), hence the Euclidean length; consequently the bounce branch's
rescale factor `old_length / new_length` equals 1 and the progress
rescale is a no-op: the bounced progress is exactly
`progress + increment - 1`. -/
theorem c9_reflection_preserves_magnitudes :
    (∀ (d p : IVec2) (map : MapData), d ≠ IVec2.ZERO →
      (|(calculate_reflection d p map).x| = |d.x| ∧
        |(calculate_reflection d p map).y| = |d.y|) ∧
      IVec2.len (calculate_reflection d p map) = IVec2.len d ∧
      IVec2.len d / IVec2.len (calculate_reflection d p map) = 1 ∧
      (∀ q : ℝ, q * (IVec2.len d / IVec2.len (calculate_reflection d p map)) = q)) ∧
    (∀ (a : MoverActor) (reg : Registry) (dt : ℝ) (map : MapData) (b : Bouncable),
      a.mover.direction ≠ IVec2.ZERO →
      1 ≤ a.mover.progress + progressInc a.mover.speed dt a.mover.direction →
      a.intended = a.mover.direction →
      is_wall (a.mover.grid_pos + a.mover.direction + a.mover.direction) map = true →
      a.bouncable = some b → 0 < b.remaining →
      (update_one a reg dt map).mover.progress =
        a.mover.progress + progressInc a.mover.speed dt a.mover.direction - 1) := by
  constructor
  · intro d p map hd
    have hlen := len_reflection d p map
    have hratio : IVec2.len d / IVec2.len (calculate_reflection d p map) = 1 := by
      rw [hlen]
      exact div_self (len_ne_zero d hd)
    refine ⟨?_, hlen, hratio, fun q => by rw [hratio, mul_one]⟩
    unfold calculate_reflection
    dsimp only
    split_ifs <;> exact ⟨by simp [abs_neg], by simp [abs_neg]⟩
  · intro a reg dt map b h0 hp hcont hw hb hrem
    rw [update_one_arrival_bounce a reg dt map b h0 hp hcont hw hb hrem]
    dsimp only
    rw [len_reflection, div_self (len_ne_zero _ h0), mul_one]

/-- Witness for C9 at the concrete corner reflection of
`c5_reflection_tie_break_witness`'s configuration: magnitudes and the
unit rescale factor. -/
theorem c9_reflection_preserves_magnitudes_witness :
    |(calculate_reflection ⟨1, 1⟩ ⟨0, 0⟩ mapTiny).x| = |(1 : ℤ)| ∧
    IVec2.len ⟨1, 1⟩ / IVec2.len (calculate_reflection ⟨1, 1⟩ ⟨0, 0⟩ mapTiny) = 1 := by
  have h := c9_reflection_preserves_magnitudes.1 ⟨1, 1⟩ ⟨0, 0⟩ mapTiny (by decide)
  exact ⟨h.1.1, h.2.2.1⟩

/-- Helper: bounds of the saturating subtraction for `u32` values in
range. -/
theorem sat_sub_bounds {i r : Int} (h0 : 0 ≤ r) (hir : r ≤ i) :
    0 ≤ u32_saturating_sub i r ∧ u32_saturating_sub i r ≤ i := by
  unfold u32_saturating_sub
  exact ⟨le_max_right _ _, max_le (by omega) (by omega)⟩

/-- C10: the motion update decrements `remaining` only under the guard
`remaining > 0`, so `remaining` never drops below zero (no unsigned
wrap-around), `initial` never changes, the invariant
`remaining ≤ initial` is preserved by every tick, and the consumed
bounce count `initial.saturating_sub(remaining)` stays in
`[0, initial]`. -/
theorem c10_bounce_budget (a : MoverActor) (reg : Registry) (dt : ℝ) (map : MapData) :
    (a.bouncable = none → (update_one a reg dt map).bouncable = none) ∧
    (∀ b, a.bouncable = some b →
      ((update_one a reg dt map).bouncable = some b ∨
        (0 < b.remaining ∧
          (update_one a reg dt map).bouncable = some ⟨b.initial, b.remaining - 1⟩)) ∧
      (∀ b', (update_one a reg dt map).bouncable = some b' →
        b'.initial = b.initial ∧
        (0 ≤ b.remaining → 0 ≤ b'.remaining) ∧
        (b.remaining ≤ b.initial → b'.remaining ≤ b'.initial) ∧
        (0 ≤ b.remaining → b.remaining ≤ b.initial →
          0 ≤ u32_saturating_sub b'.initial b'.remaining ∧
          u32_saturating_sub b'.initial b'.remaining ≤ b'.initial))) := by
  rcases update_one_bouncable_cases a reg dt map with hc | ⟨b0, hb0, hrem0, hc⟩
  · constructor
    · intro hn
      rw [hc, hn]
    · intro b hb
      refine ⟨Or.inl (hc.trans hb), ?_⟩
      intro b' hb'
      rw [hc, hb] at hb'
      obtain rfl : b = b' := Option.some_inj.mp hb'
      refine ⟨rfl, fun h => h, fun h => h, fun h0 h1 => sat_sub_bounds h0 h1⟩
  · constructor
    · intro hn
      rw [hn] at hb0
      exact Option.noConfusion hb0
    · intro b hb
      have heq : b0 = b := by
        rw [hb] at hb0
        exact (Option.some_inj.mp hb0).symm
      rw [heq] at hrem0 hc
      refine ⟨Or.inr ⟨hrem0, hc⟩, ?_⟩
      intro b' hb'
      rw [hc] at hb'
      have hb2 : b' = ⟨b.initial, b.remaining - 1⟩ := (Option.some_inj.mp hb').symm
      rw [hb2]
      refine ⟨rfl, fun _ => by dsimp only; omega, fun h => by dsimp only; omega,
        fun h0 h1 => sat_sub_bounds (by dsimp only; omega) (by dsimp only; omega)⟩

/-- Witness for C10: the fresh projectile `bounceActor` (budget `3/3`)
either keeps its counters or decrements `remaining` to 2 under the
positive-guard. -/
theorem c10_bounce_budget_witness :
    (update_one bounceActor [] 1 mapOpen5).bouncable = some ⟨3, 3⟩ ∨
    (0 < (3 : ℤ) ∧ (update_one bounceActor [] 1 mapOpen5).bouncable = some ⟨3, 3 - 1⟩) :=
  ((c10_bounce_budget bounceActor [] 1 mapOpen5).2 ⟨3, 3⟩ rfl).1

/-- C6: self-fire immunity.  For a moving projectile whose target cell is
occupied in the registry by the controlled actor (with transform and
collider present), if the consumed bounce count
`initial.saturating_sub(remaining)` is below 1 then no impact event is
emitted regardless of box overlap; once it is at least 1, exactly one
impact event is emitted iff the narrow-phase box overlap holds. -/
theorem c6_self_fire_immunity (proj_id : Entity) (proj_pos proj_size : ℚ × ℚ)
    (grid_pos direction : IVec2) (b : Bouncable) (reg : Registry)
    (collidables : Entity → Option ((ℚ × ℚ) × (ℚ × ℚ)))
    (is_player_entity : Entity → Bool) (victim : Entity) (vc : (ℚ × ℚ) × (ℚ × ℚ))
    (h0 : direction ≠ IVec2.ZERO)
    (hv : regGet reg (grid_pos + direction) = some victim)
    (hp : is_player_entity victim = true)
    (hc : collidables victim = some vc) :
    (u32_saturating_sub b.initial b.remaining < 1 →
      check_projectile_one proj_id proj_pos proj_size grid_pos direction b reg collidables
        is_player_entity = []) ∧
    (1 ≤ u32_saturating_sub b.initial b.remaining →
      (aabb_overlap proj_pos proj_size vc.1 vc.2 = true →
        check_projectile_one proj_id proj_pos proj_size grid_pos direction b reg collidables
          is_player_entity = [(proj_id, victim)]) ∧
      (aabb_overlap proj_pos proj_size vc.1 vc.2 = false →
        check_projectile_one proj_id proj_pos proj_size grid_pos direction b reg collidables
          is_player_entity = [])) := by
  unfold check_projectile_one
  rw [if_neg h0]
  dsimp only
  rw [hv]
  dsimp only
  rw [hc]
  dsimp only
  constructor
  · intro hlt
    rw [if_pos ⟨hp, hlt⟩]
  · intro hge
    have hnot : ¬(is_player_entity victim = true ∧
        u32_saturating_sub b.initial b.remaining < 1) := by
      rintro ⟨-, hlt⟩
      omega
    rw [if_neg hnot]
    constructor
    · intro hov
      rw [if_pos hov]
    · intro hov
      rw [if_neg (by simp [hov])]

/-- Witness for C6: a projectile that has bounced once
(`initial = 3, remaining = 2`) and overlaps the player's box produces
exactly one impact event. -/
theorem c6_self_fire_immunity_witness :
    check_projectile_one 4 (0, 0) (32, 32) ⟨0, 1⟩ ⟨1, 0⟩ ⟨3, 2⟩ [(⟨1, 1⟩, 5)]
      (fun e => if e = 5 then some ((0, 0), (32, 32)) else none)
      (fun e => decide (e = 5)) = [(4, 5)] :=
  ((c6_self_fire_immunity 4 (0, 0) (32, 32) ⟨0, 1⟩ ⟨1, 0⟩ ⟨3, 2⟩ [(⟨1, 1⟩, 5)]
      (fun e => if e = 5 then some ((0, 0), (32, 32)) else none)
      (fun e => decide (e = 5)) 5 ((0, 0), (32, 32))
      (by decide) (by decide) (by decide) (by decide)).2 (by decide)).1
    (by norm_num [aabb_overlap])

/-- C3 counterexample: at the non-negative `dt = 2` the increment is
`100 * 2 / 64 = 3.125`, and the carry-over resolution folds back only one
unit, so `transitActor` ends the tick still in transit with
`progress = 2.125 ≥ 1`: the claim fails for this `dt`. -/
theorem c3_counterexample :
    (0 : ℝ) ≤ 2 ∧
    (update_one transitActor [] 2 mapOpen5).mover.direction ≠ IVec2.ZERO ∧
    1 ≤ (update_one transitActor [] 2 mapOpen5).mover.progress := by
  have hp : 1 ≤ transitActor.mover.progress +
      progressInc transitActor.mover.speed 2 transitActor.mover.direction := by
    rw [show transitActor.mover.progress = (0 : ℝ) from rfl,
      show transitActor.mover.speed = (100 : ℝ) from rfl,
      show transitActor.mover.direction = (⟨1, 0⟩ : IVec2) from rfl,
      progressInc, len_mk_cardinal_x, TILE_SIZE]
    norm_num
  rw [update_one_arrival_carry transitActor [] 2 mapOpen5 (by decide) hp rfl (by decide)]
  refine ⟨by norm_num, by decide, ?_⟩
  dsimp only
  rw [show transitActor.mover.progress = (0 : ℝ) from rfl,
    show transitActor.mover.speed = (100 : ℝ) from rfl,
    show transitActor.mover.direction = (⟨1, 0⟩ : IVec2) from rfl,
    progressInc, len_mk_cardinal_x, TILE_SIZE]
  norm_num

/-- C3 amended: provided the per-tick increment is at most one unit of
progress (`speed * dt ≤ TILE_SIZE * ‖direction‖`, with `speed * dt ≥ 0`),
an in-transit actor whose progress starts in `[0,1)` ends the motion
update with progress in `[0,1)` again, across every resolution branch. -/
theorem c3_progress_bound (a : MoverActor) (reg : Registry) (dt : ℝ) (map : MapData)
    (h0 : a.mover.direction ≠ IVec2.ZERO)
    (hp0 : 0 ≤ a.mover.progress) (hp1 : a.mover.progress < 1)
    (hsd : 0 ≤ a.mover.speed * dt)
    (hbound : a.mover.speed * dt ≤ TILE_SIZE * IVec2.len a.mover.direction) :
    0 ≤ (update_one a reg dt map).mover.progress ∧
    (update_one a reg dt map).mover.progress < 1 := by
  have hTL : (0 : ℝ) < TILE_SIZE * IVec2.len a.mover.direction := by
    have hl := len_pos _ h0
    rw [TILE_SIZE]
    positivity
  have hinc0 : 0 ≤ progressInc a.mover.speed dt a.mover.direction := by
    rw [progressInc]
    exact div_nonneg hsd (le_of_lt hTL)
  have hinc1 : progressInc a.mover.speed dt a.mover.direction ≤ 1 := by
    rw [progressInc]
    exact (div_le_one hTL).mpr hbound
  by_cases harr : 1 ≤ a.mover.progress + progressInc a.mover.speed dt a.mover.direction
  · by_cases hcont : a.intended = a.mover.direction
    · by_cases hw : is_wall (a.mover.grid_pos + a.mover.direction + a.mover.direction) map
          = true
      · by_cases hcb : can_bounce_of a.bouncable = true
        · obtain ⟨b, hb, hrem⟩ : ∃ b, a.bouncable = some b ∧ 0 < b.remaining := by
            cases hob : a.bouncable with
            | none =>
              rw [hob] at hcb
              simp [can_bounce_of] at hcb
            | some b =>
              rw [hob] at hcb
              exact ⟨b, rfl, by simpa [can_bounce_of] using hcb⟩
          rw [update_one_arrival_bounce a reg dt map b h0 harr hcont hw hb hrem]
          dsimp only
          rw [len_reflection, div_self (len_ne_zero _ h0), mul_one]
          constructor <;> linarith
        · have hcbf : can_bounce_of a.bouncable = false := by
            cases hcbv : can_bounce_of a.bouncable
            · rfl
            · exact absurd hcbv hcb
          rw [update_one_arrival_stop a reg dt map h0 harr hcont hw hcbf]
          norm_num
      · have hwf : is_wall (a.mover.grid_pos + a.mover.direction + a.mover.direction) map
            = false := by
          cases hwv : is_wall (a.mover.grid_pos + a.mover.direction + a.mover.direction) map
          · rfl
          · exact absurd hwv hw
        rw [update_one_arrival_carry a reg dt map h0 harr hcont hwf]
        dsimp only
        constructor <;> linarith
    · rw [update_one_arrival_turn a reg dt map h0 harr hcont]
      dsimp only
      norm_num
  · push_neg at harr
    rw [update_one_transit_noarrival a reg dt map h0 harr]
    dsimp only
    constructor <;> linarith

/-- Witness for C3's amended bound: `probeActor` (speed 32, `dt = 1`, so
increment 0.5 ≤ 1) ends the tick with progress in `[0,1)`. -/
theorem c3_progress_bound_witness :
    0 ≤ (update_one probeActor [] 1 mapOpen5).mover.progress ∧
    (update_one probeActor [] 1 mapOpen5).mover.progress < 1 :=
  c3_progress_bound probeActor [] 1 mapOpen5 (by decide) (by norm_num [probeActor])
    (by norm_num [probeActor]) (by norm_num [probeActor])
    (by rw [show probeActor.mover.direction = (⟨1, 0⟩ : IVec2) from rfl, len_mk_cardinal_x,
          TILE_SIZE, show probeActor.mover.speed = (32 : ℝ) from rfl]
        norm_num)

/-- C1 counterexample: from the spawn state (a stationary reserver holding
its own cell) the claimed invariant holds after the first tick (the idle
start claims the destination), but after the second tick the actor
arrives and carries over into a new transit without claiming the new
destination `(3,1)`, so the in-transit part of the invariant fails. -/
theorem c1_counterexample :
    reserver_inv [spawnActor] spawnReg ∧
    reserver_inv (tick [spawnActor] spawnReg 1 mapOpen5).1
      (tick [spawnActor] spawnReg 1 mapOpen5).2 ∧
    ¬ reserver_inv
      (tick (tick [spawnActor] spawnReg 1 mapOpen5).1
        (tick [spawnActor] spawnReg 1 mapOpen5).2 1 mapOpen5).1
      (tick (tick [spawnActor] spawnReg 1 mapOpen5).1
        (tick [spawnActor] spawnReg 1 mapOpen5).2 1 mapOpen5).2 := by
  have hr : ¬(spawnActor.reserver = true ∧ ∃ occupant,
      regGet spawnReg (spawnActor.mover.grid_pos + spawnActor.intended) = some occupant ∧
        occupant ≠ spawnActor.id) := by
    rintro ⟨-, occupant, hocc, -⟩
    rw [show regGet spawnReg (spawnActor.mover.grid_pos + spawnActor.intended) = none
      from by decide] at hocc
    exact Option.noConfusion hocc
  have h1 := update_one_idle_start spawnActor spawnReg 1 mapOpen5 rfl (by decide)
    (by decide) hr
  have ht1 : tick [spawnActor] spawnReg 1 mapOpen5 = ([midActor], midReg) := by
    unfold tick
    simp only [run_movers, h1]
    rfl
  have hp2 : 1 ≤ midActor.mover.progress +
      progressInc midActor.mover.speed 1 midActor.mover.direction := by
    rw [show midActor.mover.progress = (0 : ℝ) from rfl,
      show midActor.mover.speed = (96 : ℝ) from rfl,
      show midActor.mover.direction = (⟨1, 0⟩ : IVec2) from rfl,
      progressInc, len_mk_cardinal_x, TILE_SIZE]
    norm_num
  have h2 := update_one_arrival_carry midActor midReg 1 mapOpen5 (by decide) hp2 rfl
    (by decide)
  have ht2 : tick [midActor] midReg 1 mapOpen5 =
      ([MoverActor.mk 7
          (GridMover.mk ⟨2, 1⟩ ⟨1, 0⟩
            (midActor.mover.progress +
              progressInc midActor.mover.speed 1 midActor.mover.direction - 1)
            96)
          ⟨1, 0⟩ true none false],
        [(⟨2, 1⟩, 7)]) := by
    unfold tick
    simp only [run_movers, h2]
    rfl
  refine ⟨?_, ?_, ?_⟩
  · refine ⟨by decide, ?_⟩
    intro a ha hres
    rw [List.mem_singleton] at ha
    subst ha
    exact ⟨fun _ => by decide, fun hd => absurd rfl hd⟩
  · rw [ht1]
    refine ⟨by decide, ?_⟩
    intro a ha hres
    rw [List.mem_singleton] at ha
    subst ha
    exact ⟨fun hd => absurd hd (by decide), fun _ => by decide⟩
  · rw [ht1, ht2]
    rintro ⟨-, hall⟩
    have h3 := (hall _ (List.mem_singleton.mpr rfl) rfl).2 (by decide)
    exact absurd h3 (by decide)

/-- C1 amended: the registry always has at most one entry per cell (every
motion-update path preserves duplicate-freeness of the keys), and the
motion update claims the destination on a transit started from idle: a
stationary reserver holding a reservation on its own cell still satisfies
the stationary/in-transit invariant after its update.  (The carry-over
continuation and the direction-change-on-arrival cases do not claim the
new destination — see the counterexample — so the full invariant is not
preserved for actors already in transit.) -/
theorem c1_reservation_invariant_amended :
    (∀ (a : MoverActor) (reg : Registry) (dt : ℝ) (map : MapData),
      regNodup reg → regNodup (update_one a reg dt map).reservations) ∧
    (∀ (a : MoverActor) (reg : Registry) (dt : ℝ) (map : MapData),
      a.reserver = true → a.mover.direction = IVec2.ZERO →
      regGet reg a.mover.grid_pos = some a.id →
      ((update_one a reg dt map).mover.direction = IVec2.ZERO →
        regGet (update_one a reg dt map).reservations
          (update_one a reg dt map).mover.grid_pos = some a.id) ∧
      ((update_one a reg dt map).mover.direction ≠ IVec2.ZERO →
        regGet (update_one a reg dt map).reservations
          ((update_one a reg dt map).mover.grid_pos +
            (update_one a reg dt map).mover.direction) = some a.id)) := by
  constructor
  · intro a reg dt map hn
    rcases update_one_reservations_cases a reg dt map with hc | hc | hc <;> rw [hc]
    · exact hn
    · exact regNodup_regInsert _ _ hn
    · exact regNodup_release _ _ hn
  · intro a reg dt map hres h0 hself
    by_cases h1 : a.intended = IVec2.ZERO
    · rw [update_one_idle_still a reg dt map h0 h1]
      exact ⟨fun _ => hself, fun hd => absurd h0 hd⟩
    · by_cases hw : is_wall (a.mover.grid_pos + a.intended) map = true
      · rw [update_one_idle_blocked a reg dt map h0 h1 (Or.inl hw)]
        exact ⟨fun _ => hself, fun hd => absurd h0 hd⟩
      · by_cases hocc : a.reserver = true ∧ ∃ occupant,
            regGet reg (a.mover.grid_pos + a.intended) = some occupant ∧
              occupant ≠ a.id
        · rw [update_one_idle_blocked a reg dt map h0 h1 (Or.inr hocc)]
          exact ⟨fun _ => hself, fun hd => absurd h0 hd⟩
        · have hwf : is_wall (a.mover.grid_pos + a.intended) map = false := by
            cases hwv : is_wall (a.mover.grid_pos + a.intended) map
            · rfl
            · exact absurd hwv hw
          rw [update_one_idle_start a reg dt map h0 h1 hwf hocc]
          dsimp only
          refine ⟨fun hd => absurd hd h1, fun _ => ?_⟩
          rw [if_pos hres]
          exact regGet_regInsert_self reg (a.mover.grid_pos + a.intended) a.id

/-- Witness for C1's amended invariant: after `spawnActor`'s successful
idle start, its new destination `(2,1)` is reserved for it. -/
theorem c1_reservation_invariant_amended_witness :
    regGet (update_one spawnActor spawnReg 1 mapOpen5).reservations
      ((update_one spawnActor spawnReg 1 mapOpen5).mover.grid_pos +
        (update_one spawnActor spawnReg 1 mapOpen5).mover.direction) =
      some spawnActor.id := by
  have hr : ¬(spawnActor.reserver = true ∧ ∃ occupant,
      regGet spawnReg (spawnActor.mover.grid_pos + spawnActor.intended) = some occupant ∧
        occupant ≠ spawnActor.id) := by
    rintro ⟨-, occupant, hocc, -⟩
    rw [show regGet spawnReg (spawnActor.mover.grid_pos + spawnActor.intended) = none
      from by decide] at hocc
    exact Option.noConfusion hocc
  refine (c1_reservation_invariant_amended.2 spawnActor spawnReg 1 mapOpen5 rfl rfl
    (by decide)).2 ?_
  rw [update_one_idle_start spawnActor spawnReg 1 mapOpen5 rfl (by decide) (by decide) hr]
  decide

end Gridman

